import Mathlib

/-!
Verification of the ReAct agent core (agent.py, response_parser.py).

Python strings are modelled as `List Char`; Python `str` operations
(`rfind`, `strip`, `lower`, `upper`, `split('\n')`, substring `in`) are
defined below with Python semantics.  Dictionaries (`dict[str, str]`) are
modelled as association lists with Python's insertion-order / last-write-wins
update.  The agent's mutable attributes become an explicit `AgentState`
threaded through the operations; the LLM backend and the environment tools
are oracles supplied by an `Env`.
-/

/-- Python strings as character lists. -/
abbrev Chars := List Char

/-- Whitespace recognized by Python `str.strip()` (ASCII portion). -/
def isPySpace (c : Char) : Bool :=
  c = ' ' || c = '\t' || c = '\n' || c = '\r' || c = '\x0b' || c = '\x0c'

/-- Python `s.strip()`: remove leading and trailing whitespace. -/
def pyStrip (s : Chars) : Chars :=
  ((s.dropWhile isPySpace).reverse.dropWhile isPySpace).reverse

/-- Python `s.lower()` (ASCII; the tokens scanned by the agent are ASCII). -/
def pyLower (s : Chars) : Chars := s.map Char.toLower

/-- Python `s.upper()` (ASCII; the tokens scanned by the agent are ASCII). -/
def pyUpper (s : Chars) : Chars := s.map Char.toUpper

/-- Python substring containment `needle in hay`. -/
def isSubstr (n : Chars) (h : Chars) : Bool :=
  n.isPrefixOf h ||
    match h with
    | [] => false
    | _ :: t => isSubstr n t

/-- Python `hay.rfind(needle)`: index of the last occurrence, `none` when
the needle does not occur (Python returns `-1` there). -/
def rfind (n : Chars) (h : Chars) : Option Nat :=
  match h with
  | [] => if n.isPrefixOf ([] : Chars) then some 0 else none
  | _ :: t =>
    match rfind n t with
    | some j => some (j + 1)
    | none => if n.isPrefixOf h then some 0 else none

/-- Python `s.split('\n')`: always returns at least one piece. -/
def splitLines (s : Chars) : List Chars :=
  match s with
  | [] => [[]]
  | c :: t =>
    if c = '\n' then [] :: splitLines t
    else
      match splitLines t with
      | [] => [[c]]
      | l :: ls => (c :: l) :: ls

/-- Python `'\n'.join(ls)`. -/
def joinNL (ls : List Chars) : Chars :=
  match ls with
  | [] => []
  | [l] => l
  | l :: ls' => l ++ '\n' :: joinNL ls'

/-- Python `dict[str, str]` update `d[k] = v`: last write wins, the key keeps
its first-seen position, a new key is appended at the end. -/
def dictInsert (d : List (Chars × Chars)) (k v : Chars) : List (Chars × Chars) :=
  match d with
  | [] => [(k, v)]
  | (k0, v0) :: t => if k0 = k then (k0, v) :: t else (k0, v0) :: dictInsert t k v

/-- Python `d[k]` lookup on the association-list model. -/
def dictLookup (d : List (Chars × Chars)) (k : Chars) : Option Chars :=
  match d with
  | [] => none
  | (k0, v0) :: t => if k0 = k then some v0 else dictLookup t k

/-- Python `d.get(k, dflt)`. -/
def dictGet (d : List (Chars × Chars)) (k dflt : Chars) : Chars :=
  (dictLookup d k).getD dflt

/-! ## Protocol parser (response_parser.py, class ResponseParser) -/

/-- ResponseParser.BEGIN_CALL. -/
def BEGIN_CALL : Chars := "----BEGIN_FUNCTION_CALL----".data

/-- ResponseParser.END_CALL. -/
def END_CALL : Chars := "----END_FUNCTION_CALL----".data

/-- ResponseParser.ARG_SEP. -/
def ARG_SEP : Chars := "----ARG----".data

/-- ResponseParser.VALUE_SEP. -/
def VALUE_SEP : Chars := "----VALUE----".data

/-- ResponseParser.response_format (the literal template included in the
system prompt). -/
def response_format : Chars :=
  ("\nyour_thoughts_here\n...\n----BEGIN_FUNCTION_CALL----\nfunction_name\n----ARG----\narg1_name\n----VALUE----\narg1_value (can be multiline)\n----ARG----\narg2_name\n----VALUE----\narg2_value (can be multiline)\n...\n----END_FUNCTION_CALL----\n\nDO NOT CHANGE ANY TEST! AS THEY WILL BE USED FOR EVALUATION.\n").data

/-- Parser output `{"thought": ..., "name": ..., "arguments": ...}`. -/
structure ParsedCall where
  thought : Chars
  name : Chars
  arguments : List (Chars × Chars)
deriving DecidableEq

/-- The inner value-collection loop of `ResponseParser.parse`: collect lines
until one strips to `ARG_SEP` or the body ends; returns the collected value
lines and the remaining lines. -/
def collectValue (ls : List Chars) : List Chars × List Chars :=
  match ls with
  | [] => ([], [])
  | l :: t =>
    if pyStrip l = ARG_SEP then ([], l :: t)
    else
      let r := collectValue t
      (l :: r.1, r.2)

theorem collectValue_rest_le (ls : List Chars) : (collectValue ls).2.length ≤ ls.length := by
  induction ls with
  | nil => simp [collectValue]
  | cons l t ih =>
    simp only [collectValue]
    split
    · simp
    · simpa using Nat.le_succ_of_le ih

/-- The argument-scanning `while` loop of `ResponseParser.parse` (lines after
the function-name line), translated to recursion over the remaining lines.
The loop advances at least one line per round, so the line count is enough
fuel; structural recursion on the fuel keeps the definition computable by
the kernel. -/
def parseArgsFuel (fuel : Nat) (ls : List Chars) (acc : List (Chars × Chars)) :
    List (Chars × Chars) :=
  match fuel, ls with
  | _, [] => acc
  | 0, _ :: _ => acc
  | f + 1, l :: t =>
    if pyStrip l = ARG_SEP then
      match t with
      | [] => acc
      | nameLine :: t2 =>
        let argName := pyStrip nameLine
        match t2 with
        | [] => parseArgsFuel f [] (dictInsert acc argName [])
        | vs :: t3 =>
          if pyStrip vs = VALUE_SEP then
            let c := collectValue t3
            parseArgsFuel f c.2 (dictInsert acc argName (pyStrip (joinNL c.1)))
          else parseArgsFuel f (vs :: t3) (dictInsert acc argName [])
    else parseArgsFuel f t acc

/-- The argument scan entered with adequate fuel. -/
def parseArgs (ls : List Chars) (acc : List (Chars × Chars)) : List (Chars × Chars) :=
  parseArgsFuel ls.length ls acc

theorem parseArgsFuel_nil (f : Nat) (acc : List (Chars × Chars)) :
    parseArgsFuel f [] acc = acc := by
  cases f <;> rfl

theorem parseArgsFuel_irrel (f1 : Nat) :
    ∀ (f2 : Nat) (ls : List Chars) (acc : List (Chars × Chars)),
      ls.length ≤ f1 → ls.length ≤ f2 → parseArgsFuel f1 ls acc = parseArgsFuel f2 ls acc := by
  induction f1 with
  | zero =>
    intro f2 ls acc h1 _
    have hnil : ls = [] := List.eq_nil_of_length_eq_zero (Nat.le_zero.mp h1)
    subst hnil
    simp only [parseArgsFuel_nil]
  | succ f ih =>
    intro f2 ls acc h1 h2
    cases ls with
    | nil => simp only [parseArgsFuel_nil]
    | cons l t =>
      cases f2 with
      | zero => simp at h2
      | succ g =>
        by_cases hc : pyStrip l = ARG_SEP
        · cases t with
          | nil => simp only [parseArgsFuel, if_pos hc]
          | cons nameLine t2 =>
            cases t2 with
            | nil =>
              simp only [parseArgsFuel, if_pos hc]
            | cons vs t3 =>
              by_cases hv : pyStrip vs = VALUE_SEP
              · simp only [parseArgsFuel, if_pos hc, if_pos hv]
                exact ih g _ _
                  (le_trans (collectValue_rest_le t3) (by simp at h1; omega))
                  (le_trans (collectValue_rest_le t3) (by simp at h2; omega))
              · simp only [parseArgsFuel, if_pos hc, if_neg hv]
                exact ih g _ _ (by simp at h1 ⊢; omega) (by simp at h2 ⊢; omega)
        · simp only [parseArgsFuel, if_neg hc]
          exact ih g t acc (by simp at h1; omega) (by simp at h2; omega)

/-- ResponseParser.parse: locate the last begin/end markers with `rfind`,
fail when a marker is missing or the markers are out of order, otherwise
split the call body into the name line and the scanned arguments. -/
def parse (text : Chars) : Except Chars ParsedCall :=
  match rfind BEGIN_CALL text, rfind END_CALL text with
  | some call_start, some call_end =>
    if call_end < call_start then .error ("No valid function call found".data)
    else
      let thought := pyStrip (text.take call_start)
      let call_text :=
        pyStrip ((text.drop (call_start + BEGIN_CALL.length)).take
          (call_end - (call_start + BEGIN_CALL.length)))
      match splitLines call_text with
      | [] => .error ("Function name not found".data)
      | l0 :: rest => .ok ⟨thought, pyStrip l0, parseArgs rest []⟩
  | _, _ => .error ("No valid function call found".data)

/-! ## Agent data model (agent.py, class ReactAgent) -/

/-- Python exceptions that can escape the modelled operations. -/
inductive PyErr where
  | indexError (msg : Chars)
  | typeError (msg : Chars)
deriving DecidableEq

/-- One entry of `ReactAgent.id_to_message`: role, content, timestamp,
unique_id.  `time.time()` is modelled by a monotone counter. -/
structure Message where
  role : Chars
  content : Chars
  timestamp : Nat
  unique_id : Nat
deriving DecidableEq

/-- Default used only for total modelling of Python list indexing at
indices the source always keeps valid. -/
def defaultMessage : Message := ⟨[], [], 0, 0⟩

/-- A registered tool as the agent sees it: `tool.__name__`,
`str(inspect.signature(tool))` and `inspect.getdoc(tool)` (which is `None`
for an undocumented callable). -/
structure ToolDesc where
  name : Chars
  sig : Chars
  doc : Option Chars
deriving DecidableEq

/-- The spec's GuardState: the four finish-validation attributes of
ReactAgent (`made_edit`, `ran_tests_after_edit`, `saw_failing_test`,
`last_test_had_failure`). -/
structure GuardFlags where
  made_edit : Bool
  ran_tests_after_edit : Bool
  saw_failing_test : Bool
  last_test_had_failure : Bool
deriving DecidableEq

/-- The mutable attributes of a ReactAgent instance. -/
structure AgentState where
  id_to_message : List Message
  clock : Nat
  function_map : List ToolDesc
  flags : GuardFlags
  system_message_id : Nat
  user_message_id : Nat
deriving DecidableEq

/-- ReactAgent.add_message: append a message carrying
`unique_id = len(id_to_message)` and return its id. -/
def add_message (st : AgentState) (role content : Chars) : AgentState × Nat :=
  ({ st with
      id_to_message := st.id_to_message ++
        [⟨role, content, st.clock, st.id_to_message.length⟩],
      clock := st.clock + 1 },
    st.id_to_message.length)

/-- Replace the content of the message at a (valid) list position. -/
def setContentAt : List Message → Nat → Chars → List Message
  | [], _, _ => []
  | msg :: t, 0, c => { msg with content := c } :: t
  | msg :: t, n + 1, c => msg :: setContentAt t n c

/-- ReactAgent.set_message_content: `self.id_to_message[message_id]["content"] = content`
with Python list-index semantics: non-negative indices below the length and
negative indices from `-len` alias into the list; anything else raises
IndexError. -/
def set_message_content (st : AgentState) (message_id : Int) (content : Chars) :
    Except PyErr AgentState :=
  let n : Int := st.id_to_message.length
  if 0 ≤ message_id ∧ message_id < n then
    .ok { st with id_to_message := setContentAt st.id_to_message message_id.toNat content }
  else if -n ≤ message_id ∧ message_id < 0 then
    .ok { st with id_to_message := setContentAt st.id_to_message (message_id + n).toNat content }
  else
    .error (.indexError ("list assignment index out of range".data))

/-- Tool description as built inside ReactAgent.add_functions
(`inspect.getdoc(tool) or ""`). -/
def tool_description (t : ToolDesc) : Chars :=
  ("Function: ".data) ++ t.name ++ t.sig ++ ("\n".data) ++ t.doc.getD [] ++ ("\n".data)

/-- The fixed category taxonomy of ReactAgent.add_functions. -/
def tool_categories : List (Chars × List Chars) :=
  [ (("Repository Information".data),
      [("get_repo_info".data), ("git_status".data)]),
    (("File Operations".data),
      [("show_file".data), ("replace_in_file".data), ("grep".data), ("find_files".data),
        ("show_code_structure".data), ("show_file_snippet".data)]),
    (("Testing & Analysis".data),
      [("run_test".data), ("run_relevant_tests".data), ("analyze_test_failure".data),
        ("find_test_file".data), ("check_syntax".data)]),
    (("General".data),
      [("run_bash_cmd".data), ("finish".data)]) ]

/-- First category of the taxonomy whose allow-list holds the tool name
(the inner `for category, tool_names` loop breaks at the first match). -/
def firstCategory (name : Chars) : Option Chars :=
  (tool_categories.find? (fun c => c.2.contains name)).map (fun c => c.1)

/-- Python dict update `function_map[t.name] = t`. -/
def dictInsertTool (m : List ToolDesc) (t : ToolDesc) : List ToolDesc :=
  match m with
  | [] => [t]
  | t0 :: r => if t0.name = t.name then t :: r else t0 :: dictInsertTool r t

/-- Membership test `name in function_map`. -/
def hasTool (m : List ToolDesc) (name : Chars) : Bool :=
  m.any (fun t => t.name == name)

/-- The categorized `tool_text` built by ReactAgent.add_functions from the
whole registry: one `###` section per non-empty category in taxonomy order,
then an `### Other Tools` section for uncategorized tools. -/
def build_tool_text (fmap : List ToolDesc) : Chars :=
  let sections := tool_categories.filterMap (fun c =>
    let ds := (fmap.filter (fun t => firstCategory t.name == some c.1)).map tool_description
    if ds.isEmpty then none
    else some (("### ".data) ++ c.1 ++ ("\n".data) ++ joinNL ds))
  let unc := (fmap.filter (fun t => (firstCategory t.name).isNone)).map tool_description
  let sections2 :=
    if unc.isEmpty then sections
    else sections ++ [("### Other Tools\n".data) ++ joinNL unc]
  joinNL sections2

/-- ReactAgent.add_functions: register the tools in the function map, then
append the freshly built catalogue, the response format and the test warning
to the current stored system-message content. -/
def add_functions (st : AgentState) (tools : List ToolDesc) : Except PyErr AgentState :=
  let fmap := tools.foldl dictInsertTool st.function_map
  let tool_text := build_tool_text fmap
  let current := (st.id_to_message.getD st.system_message_id defaultMessage).content
  let system_content :=
    current ++ ("\n\n## Available Tools\n\n".data) ++ tool_text ++
      ("\n\n## Response Format\n\n".data) ++ response_format ++ ("\n\n".data) ++
      ("DO NOT CHANGE ANY TEST! AS THEY WILL BE USED FOR EVALUATION.".data)
  set_message_content { st with function_map := fmap } (st.system_message_id : Int) system_content

/-- Decimal rendering of a natural number, as Python `str(int)`
(fuel-structured so it reduces in the kernel). -/
def natDigits (fuel n : Nat) : Chars :=
  match fuel with
  | 0 => []
  | f + 1 =>
    if n < 10 then [Char.ofNat (48 + n)]
    else natDigits f (n / 10) ++ [Char.ofNat (48 + n % 10)]

/-- Decimal rendering entry point. -/
def natToChars (n : Nat) : Chars := natDigits (n + 1) n

/-- Tool description as built inside ReactAgent.message_id_to_context, where
`inspect.getdoc(tool)` is interpolated without the `or ""` guard, so a
missing docstring prints as `None`. -/
def ctx_tool_description (t : ToolDesc) : Chars :=
  ("Function: ".data) ++ t.name ++ t.sig ++ ("\n".data) ++
    (match t.doc with
      | some d => d
      | none => ("None".data)) ++ ("\n".data)

/-- ReactAgent.message_id_to_context: header plus content; for the system
message additionally the flat, freshly computed tool catalogue and the
response format.  Callers only pass ids of stored messages. -/
def message_id_to_context (st : AgentState) (message_id : Nat) : Chars :=
  let message := st.id_to_message.getD message_id defaultMessage
  let header :=
    ("----------------------------\n|MESSAGE(role=\"".data) ++ message.role ++
      ("\", id=".data) ++ natToChars message.unique_id ++ (")|\n".data)
  let content := message.content
  if message.role = ("system".data) then
    let tool_descriptions := joinNL (st.function_map.map ctx_tool_description)
    header ++ content ++ ("\n".data) ++
      ("--- AVAILABLE TOOLS ---\n".data) ++ tool_descriptions ++ ("\n\n".data) ++
      ("--- RESPONSE FORMAT ---\n".data) ++ response_format ++ ("\n".data)
  else
    header ++ content ++ ("\n".data)

/-- ReactAgent.get_messages_for_llm: OpenAI chat format; a system message is
rendered through message_id_to_context with the two header lines dropped,
other messages pass their stored content through. -/
def get_messages_for_llm (st : AgentState) : List (Chars × Chars) :=
  st.id_to_message.enum.map (fun p =>
    let idx := p.1
    let msg := p.2
    if msg.role = ("system".data) then
      let formatted := message_id_to_context st idx
      let content_lines := splitLines formatted
      let content :=
        if 2 < content_lines.length then joinNL (content_lines.drop 2) else msg.content
      (msg.role, content)
    else (msg.role, msg.content))

/-! ## Initial agent construction (ReactAgent.__init__) -/

/-- The base system prompt created in ReactAgent.__init__ (the
`initial_system_content` local). -/
def initial_system_content : Chars :=
  ("You are an autonomous software engineer fixing bugs in a repository. Goal: resolve the issue and make the correct tests pass.\n\n" ++
  "# Constraints\n- No internet access. Use only the tools provided.\n- Do NOT modify tests unless explicitly required.\n- Make minimal, targeted changes. Prefer small fixes over refactors.\n- Always end your reply with exactly ONE function call using the provided markers. Nothing may appear after ----END_FUNCTION_CALL----.\n\n" ++
  "# Workflow (repeat until done)\n1) Reproduce: First action should be get_repo_info(), then run the recommended failing test (use run_relevant_tests() first, or run_test() with specific test path).\n2) Localize: Use analyze_test_failure() to understand errors. Use grep() to find relevant code patterns. Use show_code_structure() to understand file organization before reading.\n3) Inspect: Read ONLY the specific functions/classes that need changes using show_file_snippet(). Do NOT read entire large files.\n4) Edit: Apply a focused, surgical change with replace_in_file(). Replace ONLY the exact lines that need modification - typically 1-20 lines. NEVER replace entire functions or files unless absolutely necessary.\n5) Re-test: Re-run the SAME failing test(s) immediately after every edit. Use analyze_test_failure() if tests still fail to understand what\x27s wrong.\n6) Verify: Use check_syntax() after Python edits. Use git_status() to see what files changed.\n\n" ++
  "# Finish checklist (all must be true before calling finish())\n- You have seen at least one failing test that matches the issue description.\n- You made at least one successful code edit with replace_in_file().\n- You re-ran tests after your last edit.\n- Your latest test run shows all tests PASSED (no FAILED/ERROR in output).\n\n" ++
  "# Critical Rules for Edits\n- Use replace_in_file() for ALL code changes. Do NOT use run_bash_cmd() to edit files.\n- BEFORE editing: Use show_file_snippet() or show_file() to see the EXACT current content and line numbers.\n- AFTER editing: ALWAYS re-run tests to verify the change worked.\n- Edit scope: Replace only what\x27s necessary (typically 1-20 lines). Avoid replacing entire functions/classes/files.\n- Line numbers: Use show_file() or show_file_snippet() to get accurate line numbers before calling replace_in_file().\n- NEVER include function call markers (----BEGIN_FUNCTION_CALL----, ----END_FUNCTION_CALL----, ----ARG----, ----VALUE----) in the content parameter of replace_in_file().\n\n" ++
  "# Efficient Tool Usage\n- show_file(): Use for small files (<50 lines). Returns first 200 lines with line numbers.\n- show_file_snippet(path, start_line, end_line): Use for specific sections of large files. More efficient than show_file().\n- show_code_structure(): Use FIRST for large files to see structure, then use show_file_snippet() to read specific functions.\n- grep(pattern, file_pattern): Use to search across files for specific patterns or function names.\n- find_files(name_pattern): Use to locate files by name when you don\x27t know the exact path.\n\n" ++
  "# When Stuck\n- Re-read the issue description for missed details.\n- Use analyze_test_failure() to extract precise error messages and line numbers.\n- Check if your edit actually changed what you intended - re-read the file with show_file_snippet() after editing.\n- Check edge cases: None values, empty inputs, type mismatches, missing imports.\n- Consider if the issue is in a different file than you think - use grep() to search broadly.\n- If tests pass locally but the issue persists, ensure you\x27re testing the right thing.\n").data

/-- `inspect.getdoc(ReactAgent.finish)`: the dedented docstring of the
mandatory finish tool. -/
def finish_doc : Chars :=
  ("The agent must call this function with the final result when it has solved the given task. The function calls \"git add -A and git diff --cached\" to generate a patch and returns the patch as submission.\n\nArgs: \n    result (str); the result generated by the agent\n\nReturns:\n    The result passed as an argument.  The result is then returned by the agent\x27s run method.").data

/-- The descriptor of ReactAgent.finish as introspection shows it. -/
def finishTool : ToolDesc :=
  ⟨("finish".data), ("(result: str)".data), some finish_doc⟩

/-- ReactAgent.__init__: two anchor messages (system base prompt, empty user
task slot) and registration of the mandatory finish tool.  The final
`add_functions` call writes to the existing system message at index 0, so it
cannot fail; the fallback branch is unreachable. -/
def reactAgentInit : AgentState :=
  let st0 : AgentState :=
    { id_to_message := [], clock := 0, function_map := [],
      flags := ⟨false, false, false, false⟩,
      system_message_id := 0, user_message_id := 0 }
  let r1 := add_message st0 ("system".data) initial_system_content
  let st1 := { r1.1 with system_message_id := r1.2 }
  let r2 := add_message st1 ("user".data) []
  let st2 := { r2.1 with user_message_id := r2.2 }
  match add_functions st2 [finishTool] with
  | .ok s => s
  | .error _ => st2

/-! ## Guard state machine (ReactAgent.run, lines 242-262 and 348-374) -/

/-- The `_is_test_command` heuristic nested in ReactAgent.run. -/
def is_test_command (command : Chars) : Bool :=
  if command = [] then false
  else
    let command_lower := pyLower command
    isSubstr ("pytest".data) command_lower ||
    isSubstr ("python -m pytest".data) command_lower ||
    isSubstr ("python -m unittest".data) command_lower ||
    isSubstr ("unittest".data) command_lower ||
    isSubstr ("make test".data) command_lower ||
    (isSubstr ("test".data) command_lower &&
      (isSubstr ("test_".data) command_lower ||
       isSubstr ("tests/".data) command_lower ||
       isSubstr ("/test".data) command_lower))

/-- The failure tokens scanned by `_has_test_failure`. -/
def failureTokens : List Chars :=
  [("FAILED".data), ("ERROR".data), ("TRACEBACK".data), ("EXCEPTION".data), ("FAILURES".data)]

/-- The `_has_test_failure` helper nested in ReactAgent.run: uppercase the
output and look for any failure token. -/
def has_test_failure (output : Chars) : Bool :=
  let upper := pyUpper output
  failureTokens.any (fun token => isSubstr token upper)

/-- The success detection for a replace_in_file result (run loop lines
349-355): the lowercased text must contain the success marker and contain
neither "error" nor "timeout". -/
def editSuccess (result : Chars) : Bool :=
  let lowered := pyLower result
  isSubstr ("successfully replaced".data) lowered &&
    !(isSubstr ("error".data) lowered) && !(isSubstr ("timeout".data) lowered)

/-- The flag-update block of ReactAgent.run (lines 347-374), executed after a
tool call returned `result` without raising. -/
def updateFlags (g : GuardFlags) (name : Chars) (arguments : List (Chars × Chars))
    (result : Chars) : GuardFlags :=
  if name = ("replace_in_file".data) then
    if editSuccess result then { g with made_edit := true, ran_tests_after_edit := false }
    else g
  else if name = ("run_test".data) ∨ name = ("run_relevant_tests".data) then
    let has_failure := has_test_failure result
    { g with
        last_test_had_failure := has_failure,
        saw_failing_test := if has_failure then true else g.saw_failing_test,
        ran_tests_after_edit := if g.made_edit then true else g.ran_tests_after_edit }
  else if name = ("run_bash_cmd".data) then
    let command := dictGet arguments ("command".data) []
    if is_test_command command then
      let has_failure := has_test_failure result
      { g with
          last_test_had_failure := has_failure,
          saw_failing_test := if has_failure then true else g.saw_failing_test,
          ran_tests_after_edit := if g.made_edit then true else g.ran_tests_after_edit }
    else g
  else g

/-- Corrective message of guard check 1 (no failing test reproduced). -/
def rejectionMsg1 : Chars :=
  ("You have not reproduced a failing test yet. Run the recommended failing test with run_relevant_tests() or run_test() before finishing.").data

/-- Corrective message of guard check 2 (no edit made). -/
def rejectionMsg2 : Chars :=
  ("You have not modified any files yet. Use replace_in_file() to change the code before calling finish().").data

/-- Corrective message of guard check 3 (no test run since last edit). -/
def rejectionMsg3 : Chars :=
  ("You have not run tests since your last code change. Re-run the failing test with run_relevant_tests() or run_test() before calling finish().").data

/-- Corrective message of guard check 4 (latest test run failing). -/
def rejectionMsg4 : Chars :=
  ("Your most recent test run still shows failures. Fix the issue and re-run tests before calling finish().").data

/-- The finish-gating checks of ReactAgent.run (lines 308-332), in source
order: `some msg` means the finish request is rejected with that corrective
message, `none` means it is accepted. -/
def guardRejection (g : GuardFlags) : Option Chars :=
  if !g.saw_failing_test then some rejectionMsg1
  else if !g.made_edit then some rejectionMsg2
  else if !g.ran_tests_after_edit then some rejectionMsg3
  else if g.last_test_had_failure then some rejectionMsg4
  else none

/-! ## Loop controller (ReactAgent.run) -/

/-- Python `sep.join(ls)` for an arbitrary separator. -/
def joinSep (sep : Chars) (ls : List Chars) : Chars :=
  match ls with
  | [] => []
  | [l] => l
  | l :: ls' => l ++ sep ++ joinSep sep ls'

/-- Python string `<=` (lexicographic by code point). -/
def lexLe (a b : Chars) : Bool :=
  match a, b with
  | [], _ => true
  | _ :: _, [] => false
  | x :: xs, y :: ys =>
    if x = y then lexLe xs ys else Nat.blt x.toNat y.toNat

/-- Insertion step of the `sorted(...)` model. -/
def insSorted (x : Chars) : List Chars → List Chars
  | [] => [x]
  | y :: t => if lexLe x y then x :: y :: t else y :: insSorted x t

/-- Python `sorted(strings)` (insertion sort; the agent sorts tool names,
which are pairwise distinct). -/
def pySorted (l : List Chars) : List Chars := l.foldr insSorted []

/-- One escaped character of a Python string repr (printable-ASCII model). -/
def charReprIn (q : Char) (c : Char) : Chars :=
  if c = '\\' then ['\\', '\\']
  else if c = q then ['\\', q]
  else if c = '\n' then ['\\', 'n']
  else if c = '\r' then ['\\', 'r']
  else if c = '\t' then ['\\', 't']
  else [c]

/-- Python `repr(str)` (printable-ASCII model): single quotes unless the text
holds a single quote and no double quote. -/
def pyStrRepr (s : Chars) : Chars :=
  let q := if s.contains '\x27' && !(s.contains '"') then '"' else '\x27'
  q :: (s.map (charReprIn q)).flatten ++ [q]

/-- Python `str(dict[str, str])` as it appears in the f-string for tool
errors. -/
def pyDictRepr (d : List (Chars × Chars)) : Chars :=
  '\x7b' :: joinSep (", ".data)
      (d.map (fun p => pyStrRepr p.1 ++ (": ".data) ++ pyStrRepr p.2)) ++ ['\x7d']

/-- The observation appended when the LLM call raises (run loop lines
275-279). -/
def llmErrorMsg (tyName msg : Chars) : Chars :=
  ("Error calling LLM: ".data) ++ tyName ++ (": ".data) ++ msg ++
    ("\nThe API call failed. Please try again with your next action.".data)

/-- The corrective observation appended when parsing fails (run loop lines
291-302), restating the expected grammar. -/
def parseErrorMsg (e : Chars) : Chars :=
  ("Error parsing function call: ".data) ++ e ++
    ("\nMake sure your response includes exactly one function call with the format:\n".data) ++
    BEGIN_CALL ++ ("\nfunction_name\n".data) ++ ARG_SEP ++ ("\narg_name\n".data) ++
    VALUE_SEP ++ ("\narg_value\n".data) ++ END_CALL ++
    ("\nYour response should not include function call markers in file content.".data)

/-- The ValueError observation of the run loop (lines 378-386), with the two
remediation tips keyed on the exception text. -/
def valueErrorObservation (name msg : Chars) : Chars :=
  let base := ("Error executing ".data) ++ name ++ (": ".data) ++ msg
  if isSubstr ("function call marker".data) (pyLower msg) then
    base ++ ("\nTip: When using replace_in_file(), only include the actual code content. Do not include function call markers (----BEGIN_FUNCTION_CALL----, etc.) in the content parameter.".data)
  else if isSubstr ("not found".data) (pyLower msg) ||
      isSubstr ("does not exist".data) (pyLower msg) then
    base ++ ("\nTip: Use find_files() or grep() to locate the correct file path.".data)
  else base

/-- The ValueError text raised for an unregistered tool name (run loop lines
338-343). -/
def unknownFuncMsg (name : Chars) (fmap : List ToolDesc) : Chars :=
  ("Unknown function: ".data) ++ name ++ (". Available functions: ".data) ++
    joinSep (", ".data) (pySorted (fmap.map (fun t => t.name)))

/-- The generic-exception observation of the run loop (lines 387-393). -/
def execExnMsg (name tyName msg : Chars) (arguments : List (Chars × Chars)) : Chars :=
  ("Error executing ".data) ++ name ++ (": ".data) ++ tyName ++ (": ".data) ++ msg ++
    ("\nArguments used: ".data) ++ pyDictRepr arguments

/-- Calling `self.finish(**arguments)`: Python keyword binding against the
signature `finish(result)`.  Exactly the key "result" binds; anything else
raises TypeError.  The body returns the bound argument. -/
def pyCallFinish (arguments : List (Chars × Chars)) : Except PyErr Chars :=
  match arguments with
  | [(k, v)] =>
    if k = ("result".data) then .ok v
    else .error (.typeError ("finish() got an unexpected keyword argument".data))
  | _ => .error (.typeError ("finish() argument mismatch".data))

/-- Outcome of one environment tool call as the run loop observes it:
a returned text, a raised ValueError, or another raised exception
(type name and text). -/
inductive ToolOutcome where
  | ok (result : Chars)
  | valueError (msg : Chars)
  | exn (tyName msg : Chars)
deriving DecidableEq

/-- The external collaborators of one run: the LLM backend
(`llm.generate(messages)`, which may raise) and the registered tool
implementations.  Both are indexed by their call number so distinct calls
may observe a changed world. -/
structure Env where
  llm : Nat → List (Chars × Chars) → Except (Chars × Chars) Chars
  tool : Nat → Chars → List (Chars × Chars) → ToolOutcome

/-- Decidable equality for the `Except` results compared in concrete
evaluations. -/
instance exceptDecEq {ε α : Type} [DecidableEq ε] [DecidableEq α] :
    DecidableEq (Except ε α) := fun a b =>
  match a, b with
  | .ok x, .ok y =>
    if h : x = y then isTrue (by rw [h])
    else isFalse (by intro hh; injection hh; contradiction)
  | .error x, .error y =>
    if h : x = y then isTrue (by rw [h])
    else isFalse (by intro hh; injection hh; contradiction)
  | .ok _, .error _ => isFalse (by intro hh; injection hh)
  | .error _, .ok _ => isFalse (by intro hh; injection hh)

/-- Instrumented result of a run: the returned value (or escaped exception),
the final agent state, the number of LLM calls made, whether a finish
request passed the guards, and how many finish requests were rejected. -/
structure RunOut where
  result : Except PyErr Chars
  state : AgentState
  llmCalls : Nat
  finishAccepted : Bool
  finishRejections : Nat
deriving DecidableEq

/-- Account for the LLM call of the current iteration. -/
def bumpLLM (o : RunOut) : RunOut := { o with llmCalls := o.llmCalls + 1 }

/-- Account for a rejected finish request in the current iteration. -/
def bumpRej (o : RunOut) : RunOut := { o with finishRejections := o.finishRejections + 1 }

/-- The main ReAct loop of ReactAgent.run (lines 265-396), by recursion on
the remaining step budget.  Each iteration: render messages, call the LLM
(failure appends an error observation and continues), append the assistant
message, parse (failure appends a corrective observation and continues),
branch on finish (guards reject with a corrective user message and continue,
or accept and return), otherwise dispatch the tool, update the guard flags
and append the observation.  Exhausted budget returns
`self.finish("Max steps reached")`. -/
def runLoop (env : Env) (li ti : Nat) (st : AgentState) : Nat → RunOut
  | 0 => ⟨.ok ("Max steps reached".data), st, 0, false, 0⟩
  | r + 1 =>
    match env.llm li (get_messages_for_llm st) with
    | .error e =>
      let st1 := (add_message st ("user".data) (llmErrorMsg e.1 e.2)).1
      bumpLLM (runLoop env (li + 1) ti st1 r)
    | .ok response =>
      let st1 := (add_message st ("assistant".data) response).1
      match parse response with
      | .error e =>
        let st2 := (add_message st1 ("user".data) (parseErrorMsg e)).1
        bumpLLM (runLoop env (li + 1) ti st2 r)
      | .ok function_call =>
        if function_call.name = ("finish".data) then
          match guardRejection st.flags with
          | some m =>
            let st2 := (add_message st1 ("user".data) m).1
            bumpRej (bumpLLM (runLoop env (li + 1) ti st2 r))
          | none => ⟨pyCallFinish function_call.arguments, st1, 1, true, 0⟩
        else
          if hasTool st.function_map function_call.name then
            match env.tool ti function_call.name function_call.arguments with
            | .ok result =>
              let stF := { st1 with
                flags := updateFlags st1.flags function_call.name function_call.arguments result }
              let st2 := (add_message stF ("user".data) (("Observation: ".data) ++ result)).1
              bumpLLM (runLoop env (li + 1) (ti + 1) st2 r)
            | .valueError msg =>
              let st2 := (add_message st1 ("user".data)
                (valueErrorObservation function_call.name msg)).1
              bumpLLM (runLoop env (li + 1) (ti + 1) st2 r)
            | .exn tyName msg =>
              let st2 := (add_message st1 ("user".data)
                (execExnMsg function_call.name tyName msg function_call.arguments)).1
              bumpLLM (runLoop env (li + 1) (ti + 1) st2 r)
          else
            let st2 := (add_message st1 ("user".data)
              (valueErrorObservation function_call.name
                (unknownFuncMsg function_call.name st.function_map))).1
            bumpLLM (runLoop env (li + 1) ti st2 r)

/-- ReactAgent.run: store the task text in the fixed user message, then run
the loop.  A failure of that store (impossible for states built by
`reactAgentInit`) escapes as an exception. -/
def run (env : Env) (st : AgentState) (task : Chars) (max_steps : Nat) : RunOut :=
  match set_message_content st (st.user_message_id : Int) task with
  | .error e => ⟨.error e, st, 0, false, 0⟩
  | .ok st1 => runLoop env 0 0 st1 max_steps

/-! ## Parser lemmas -/

theorem splitLines_ne_nil (s : Chars) : splitLines s ≠ [] := by
  cases s with
  | nil => simp [splitLines]
  | cons c t =>
    simp only [splitLines]
    split
    · simp
    · cases splitLines t <;> simp

theorem rfind_append_right {n b : Chars} (a : Chars) {j : Nat}
    (h : rfind n b = some j) : rfind n (a ++ b) = some (a.length + j) := by
  induction a with
  | nil => simpa using h
  | cons c a' ih =>
    show rfind n (c :: (a' ++ b)) = _
    rw [rfind, ih]
    simp only [List.length_cons]
    congr 1
    omega

theorem rfind_eq_none_iff (n : Chars) : ∀ h : Chars, rfind n h = none ↔ isSubstr n h = false := by
  intro h
  induction h with
  | nil =>
    rw [rfind, isSubstr]
    cases hp : n.isPrefixOf ([] : Chars) <;> simp [hp]
  | cons c t ih =>
    rw [rfind, isSubstr]
    cases hr : rfind n t with
    | some j =>
      have : ¬ isSubstr n t = false := by
        intro hf
        rw [ih.mpr hf] at hr
        cases hr
      cases hs : isSubstr n t
      · exact absurd hs this
      · simp [hs]
    | none =>
      have ht : isSubstr n t = false := ih.mp hr
      cases hp : n.isPrefixOf (c :: t) <;> simp [hp, ht]

/-- C10: whenever both markers occur and the last end-marker does not precede
the last begin-marker, parse returns a ParsedCall and never fails: splitting
the call body on newlines always yields at least one line, so the internal
"Function name not found" branch is unreachable, and an empty call body
parses to the empty function name with no arguments. -/
theorem C10_parse_total :
    (∀ s : Chars, splitLines s ≠ []) ∧
    (∀ (text : Chars) (cs ce : Nat),
      rfind BEGIN_CALL text = some cs → rfind END_CALL text = some ce → cs ≤ ce →
      ∃ pc : ParsedCall, parse text = .ok pc) ∧
    parse (BEGIN_CALL ++ END_CALL) = .ok ⟨[], [], []⟩ := by
  refine ⟨splitLines_ne_nil, ?_, by decide⟩
  intro text cs ce h1 h2 hle
  simp only [parse, h1, h2]
  rw [if_neg (by omega)]
  rcases hsp : splitLines (pyStrip (List.take (ce - (cs + BEGIN_CALL.length))
      (List.drop (cs + BEGIN_CALL.length) text))) with _ | ⟨l0, rest⟩
  · exact absurd hsp (splitLines_ne_nil _)
  · exact ⟨_, rfl⟩

/-- C10 witness: a concrete ordered-markers input parses successfully. -/
theorem C10_witness :
    ∃ pc : ParsedCall,
      parse (("hi\n".data) ++ BEGIN_CALL ++ ("\nfinish\n".data) ++ END_CALL) = .ok pc :=
  C10_parse_total.2.1 _ 3 38 (by decide) (by decide) (by decide)

/-- C5: parse fails (with the no-call-found error) exactly when the
begin-marker is absent, the end-marker is absent, or the last end-marker
precedes the last begin-marker; and the run loop recovers such a failure
locally, appending the corrective grammar observation and continuing with
the step budget decremented instead of aborting. -/
theorem C5_parse_failure :
    (∀ text : Chars,
      ((∃ e, parse text = .error e) ↔
        (isSubstr BEGIN_CALL text = false ∨ isSubstr END_CALL text = false ∨
          ∃ cs ce, rfind BEGIN_CALL text = some cs ∧ rfind END_CALL text = some ce ∧
            ce < cs))) ∧
    (∀ (env : Env) (li ti r : Nat) (st : AgentState) (response e : Chars),
      env.llm li (get_messages_for_llm st) = .ok response →
      parse response = .error e →
      runLoop env li ti st (r + 1) =
        bumpLLM (runLoop env (li + 1) ti
          ((add_message ((add_message st ("assistant".data) response).1) ("user".data)
            (parseErrorMsg e)).1) r)) := by
  constructor
  · intro text
    constructor
    · rintro ⟨e, he⟩
      rcases hB : rfind BEGIN_CALL text with _ | cs
      · exact Or.inl ((rfind_eq_none_iff _ _).mp hB)
      · rcases hE : rfind END_CALL text with _ | ce
        · exact Or.inr (Or.inl ((rfind_eq_none_iff _ _).mp hE))
        · by_cases hlt : ce < cs
          · exact Or.inr (Or.inr ⟨cs, ce, hB ▸ rfl, hE ▸ rfl, hlt⟩)
          · exfalso
            simp only [parse, hB, hE] at he
            rw [if_neg hlt] at he
            rcases hsp : splitLines (pyStrip (List.take (ce - (cs + BEGIN_CALL.length))
                (List.drop (cs + BEGIN_CALL.length) text))) with _ | ⟨l0, rest⟩
            · exact splitLines_ne_nil _ hsp
            · rw [hsp] at he
              cases he
    · intro hcond
      rcases hcond with hB | hE | ⟨cs, ce, hB, hE, hlt⟩
      · have hB' : rfind BEGIN_CALL text = none := (rfind_eq_none_iff _ _).mpr hB
        simp only [parse, hB']
        exact ⟨_, rfl⟩
      · have hE' : rfind END_CALL text = none := (rfind_eq_none_iff _ _).mpr hE
        rcases hB2 : rfind BEGIN_CALL text with _ | cs
        · simp only [parse, hB2]
          exact ⟨_, rfl⟩
        · simp only [parse, hB2, hE']
          exact ⟨_, rfl⟩
      · simp only [parse, hB, hE]
        rw [if_pos hlt]
        exact ⟨_, rfl⟩
  · intro env li ti r st response e hllm hparse
    simp only [runLoop, hllm, hparse]

/-- A response with no markers, used to witness parse-failure recovery. -/
def noCallText : Chars := ("I forgot the markers.").data

/-- An environment whose model always answers with an unparsable response. -/
def envBadParse : Env :=
  { llm := fun _ _ => .ok noCallText, tool := fun _ _ _ => .ok [] }

/-- C5 witness: the characterization and the recovery step at concrete
inputs. -/
theorem C5_witness :
    (∃ e, parse noCallText = .error e) ∧
    runLoop envBadParse 0 0 reactAgentInit 1 =
      bumpLLM (runLoop envBadParse 1 0
        ((add_message ((add_message reactAgentInit ("assistant".data) noCallText).1)
          ("user".data) (parseErrorMsg (("No valid function call found").data))).1) 0) :=
  ⟨(C5_parse_failure.1 noCallText).mpr (Or.inl (by decide)),
    C5_parse_failure.2 envBadParse 0 0 0 reactAgentInit noCallText _ rfl (by decide)⟩

theorem parse_eq_ok (text : Chars) (cs ce : Nat) (l0 : Chars) (rest : List Chars)
    (h1 : rfind BEGIN_CALL text = some cs) (h2 : rfind END_CALL text = some ce)
    (hle : cs ≤ ce)
    (hsp : splitLines (pyStrip (List.take (ce - (cs + BEGIN_CALL.length))
      (List.drop (cs + BEGIN_CALL.length) text))) = l0 :: rest) :
    parse text = .ok ⟨pyStrip (List.take cs text), pyStrip l0, parseArgs rest []⟩ := by
  simp only [parse, h1, h2]
  rw [if_neg (by omega), hsp]

/-- C2: the parser anchors on the LAST occurrence of each marker.  For a text
that ends in a call block and whose prefix already shows both markers (the
"markers appear twice" scenario), parse returns the final block's name and
arguments, ignoring the earlier occurrences, and the thought is everything
strictly before the last begin-marker, trimmed. -/
theorem C2_last_occurrence (pre body : Chars) (pc : ParsedCall)
    (_htwiceB : isSubstr BEGIN_CALL pre = true)
    (_htwiceE : isSubstr END_CALL pre = true)
    (hanchor : rfind BEGIN_CALL (BEGIN_CALL ++ (body ++ END_CALL)) = some 0)
    (hblk : parse (BEGIN_CALL ++ (body ++ END_CALL)) = .ok pc) :
    pc.thought = [] ∧
    parse (pre ++ (BEGIN_CALL ++ (body ++ END_CALL))) =
      .ok ⟨pyStrip pre, pc.name, pc.arguments⟩ := by
  have hEE : rfind END_CALL END_CALL = some 0 := by decide
  have hEblk : rfind END_CALL (BEGIN_CALL ++ (body ++ END_CALL)) =
      some (BEGIN_CALL.length + body.length) := by
    have h := rfind_append_right (BEGIN_CALL ++ body) hEE
    rw [List.append_assoc] at h
    simpa using h
  have hBfull : rfind BEGIN_CALL (pre ++ (BEGIN_CALL ++ (body ++ END_CALL))) =
      some pre.length := by
    simpa using rfind_append_right pre hanchor
  have hEfull : rfind END_CALL (pre ++ (BEGIN_CALL ++ (body ++ END_CALL))) =
      some (pre.length + (BEGIN_CALL.length + body.length)) :=
    rfind_append_right pre hEblk
  rcases hsp : splitLines (pyStrip body) with _ | ⟨l0, rest⟩
  · exact absurd hsp (splitLines_ne_nil _)
  have hs1 : List.take (BEGIN_CALL.length + body.length - (0 + BEGIN_CALL.length))
      (List.drop (0 + BEGIN_CALL.length) (BEGIN_CALL ++ (body ++ END_CALL))) = body := by
    rw [Nat.zero_add, List.drop_left]
    have harith : BEGIN_CALL.length + body.length - BEGIN_CALL.length = body.length := by
      omega
    rw [harith]
    exact List.take_left body END_CALL
  have hblk2 := parse_eq_ok _ 0 (BEGIN_CALL.length + body.length) l0 rest hanchor hEblk
    (by omega) (by rw [hs1]; exact hsp)
  rw [show pyStrip (List.take 0 (BEGIN_CALL ++ (body ++ END_CALL))) = [] from rfl] at hblk2
  have hpcval : pc = (⟨[], pyStrip l0, parseArgs rest []⟩ : ParsedCall) := by
    have h := hblk.symm.trans hblk2
    injection h
  subst hpcval
  refine ⟨rfl, ?_⟩
  have hs2 : List.take
      (pre.length + (BEGIN_CALL.length + body.length) - (pre.length + BEGIN_CALL.length))
      (List.drop (pre.length + BEGIN_CALL.length)
        (pre ++ (BEGIN_CALL ++ (body ++ END_CALL)))) = body := by
    have hd : List.drop (pre.length + BEGIN_CALL.length)
        (pre ++ (BEGIN_CALL ++ (body ++ END_CALL))) = body ++ END_CALL := by
      rw [← List.append_assoc]
      have hl : pre.length + BEGIN_CALL.length = (pre ++ BEGIN_CALL).length := by
        rw [List.length_append]
      rw [hl]
      exact List.drop_left (pre ++ BEGIN_CALL) (body ++ END_CALL)
    rw [hd]
    have harith :
        pre.length + (BEGIN_CALL.length + body.length) - (pre.length + BEGIN_CALL.length) =
          body.length := by omega
    rw [harith]
    exact List.take_left body END_CALL
  have hfull := parse_eq_ok _ pre.length (pre.length + (BEGIN_CALL.length + body.length))
    l0 rest hBfull hEfull (by omega) (by rw [hs2]; exact hsp)
  rw [List.take_left pre (BEGIN_CALL ++ (body ++ END_CALL))] at hfull
  exact hfull

/-- A reasoning preamble that itself shows both markers. -/
def c2pre : Chars :=
  (("An example call looks like ").data) ++ BEGIN_CALL ++ (("\nfoo\n").data) ++ END_CALL ++
    ((" and now the real one:\n").data)

/-- The body of the authoritative final call. -/
def c2body : Chars := ("\nbar\n----ARG----\nx\n----VALUE----\n1\n").data

/-- C2 witness: with the markers appearing twice, parse extracts the second
occurrence's name and arguments and the trimmed preamble as thought. -/
theorem C2_witness :
    (⟨[], ("bar").data, [(("x").data, ("1").data)]⟩ : ParsedCall).thought = [] ∧
    parse (c2pre ++ (BEGIN_CALL ++ (c2body ++ END_CALL))) =
      .ok ⟨pyStrip c2pre, ("bar").data, [(("x").data, ("1").data)]⟩ :=
  C2_last_occurrence c2pre c2body ⟨[], ("bar").data, [(("x").data, ("1").data)]⟩
    (by decide) (by decide) (by decide) (by decide)

/-! ## Argument-scan lemmas (C6) -/

theorem parseArgs_skip (l : Chars) (t : List Chars) (acc : List (Chars × Chars))
    (h : pyStrip l ≠ ARG_SEP) : parseArgs (l :: t) acc = parseArgs t acc := by
  show parseArgsFuel (t.length + 1) (l :: t) acc = parseArgsFuel t.length t acc
  simp only [parseArgsFuel, if_neg h]

theorem parseArgs_argsep_end (l : Chars) (acc : List (Chars × Chars))
    (h : pyStrip l = ARG_SEP) : parseArgs [l] acc = acc := by
  show parseArgsFuel 1 [l] acc = acc
  simp only [parseArgsFuel, if_pos h]

theorem parseArgs_noval_end (l n : Chars) (acc : List (Chars × Chars))
    (h : pyStrip l = ARG_SEP) : parseArgs [l, n] acc = dictInsert acc (pyStrip n) [] := by
  show parseArgsFuel 2 [l, n] acc = dictInsert acc (pyStrip n) []
  simp only [parseArgsFuel, if_pos h]

theorem parseArgs_withval (l n v : Chars) (t3 : List Chars) (acc : List (Chars × Chars))
    (h : pyStrip l = ARG_SEP) (hv : pyStrip v = VALUE_SEP) :
    parseArgs (l :: n :: v :: t3) acc =
      parseArgs (collectValue t3).2
        (dictInsert acc (pyStrip n) (pyStrip (joinNL (collectValue t3).1))) := by
  show parseArgsFuel (t3.length + 3) (l :: n :: v :: t3) acc = _
  simp only [parseArgsFuel, if_pos h, if_pos hv]
  exact parseArgsFuel_irrel _ _ _ _
    (le_trans (collectValue_rest_le t3) (by omega)) (le_refl _)

theorem parseArgs_noval_cons (l n v : Chars) (t3 : List Chars) (acc : List (Chars × Chars))
    (h : pyStrip l = ARG_SEP) (hv : pyStrip v ≠ VALUE_SEP) :
    parseArgs (l :: n :: v :: t3) acc =
      parseArgs (v :: t3) (dictInsert acc (pyStrip n) []) := by
  show parseArgsFuel (t3.length + 3) (l :: n :: v :: t3) acc =
    parseArgsFuel (t3.length + 1) (v :: t3) (dictInsert acc (pyStrip n) [])
  conv_lhs => rw [parseArgsFuel]
  rw [if_pos h]
  simp only []
  rw [if_neg hv]
  apply parseArgsFuel_irrel
  all_goals simp only [List.length_cons]
  all_goals omega

theorem collectValue_append (vs r : List Chars)
    (hvs : ∀ l ∈ vs, pyStrip l ≠ ARG_SEP)
    (hr : r = [] ∨ ∃ h0 t0, r = h0 :: t0 ∧ pyStrip h0 = ARG_SEP) :
    collectValue (vs ++ r) = (vs, r) := by
  induction vs with
  | nil =>
    rcases hr with rfl | ⟨h0, t0, rfl, hh⟩
    · rfl
    · simp [collectValue, hh]
  | cons l vs' ih =>
    have hl : pyStrip l ≠ ARG_SEP := hvs l (by simp)
    have ih' := ih (fun x hx => hvs x (by simp [hx]))
    simp [collectValue, hl, ih']

/-- The spec's well-formed call-body grammar after the name line: for each
argument, an arg-separator line, a name line, and optionally a
value-separator line followed by the raw value lines. -/
def renderArgBlocks : List (Chars × Option (List Chars)) → List Chars
  | [] => []
  | (n, some vs) :: rest => ARG_SEP :: n :: VALUE_SEP :: (vs ++ renderArgBlocks rest)
  | (n, none) :: rest => ARG_SEP :: n :: renderArgBlocks rest

/-- The value the scan is specified to produce: the value lines joined with
newline and trimmed, or the empty string when no value separator follows. -/
def argValue : Option (List Chars) → Chars
  | some vs => pyStrip (joinNL vs)
  | none => []

theorem renderArgBlocks_cons_head (q : Chars × Option (List Chars))
    (qs : List (Chars × Option (List Chars))) :
    ∃ t0, renderArgBlocks (q :: qs) = ARG_SEP :: t0 := by
  obtain ⟨qn, qv⟩ := q
  cases qv <;> exact ⟨_, rfl⟩

theorem parseArgs_renderArgBlocks :
    ∀ (args : List (Chars × Option (List Chars))),
      (∀ p ∈ args, ∀ l ∈ p.2.getD [], pyStrip l ≠ ARG_SEP) →
      ∀ acc, parseArgs (renderArgBlocks args) acc =
        args.foldl (fun a p => dictInsert a (pyStrip p.1) (argValue p.2)) acc := by
  intro args
  induction args with
  | nil => intro _ acc; rfl
  | cons p rest ih =>
    intro hvs acc
    have hrest : ∀ q ∈ rest, ∀ l ∈ q.2.getD [], pyStrip l ≠ ARG_SEP :=
      fun q hq => hvs q (by simp [hq])
    obtain ⟨n, vopt⟩ := p
    cases vopt with
    | some vs =>
      have hcv : collectValue (vs ++ renderArgBlocks rest) = (vs, renderArgBlocks rest) := by
        apply collectValue_append
        · intro l hl
          exact hvs (n, some vs) (by simp) l (by simpa using hl)
        · cases rest with
          | nil => exact Or.inl rfl
          | cons q qs =>
            obtain ⟨t0, ht0⟩ := renderArgBlocks_cons_head q qs
            exact Or.inr ⟨ARG_SEP, t0, ht0, by decide⟩
      show parseArgs (ARG_SEP :: n :: VALUE_SEP :: (vs ++ renderArgBlocks rest)) acc = _
      rw [parseArgs_withval _ _ _ _ _ (by decide) (by decide), hcv]
      exact ih hrest _
    | none =>
      cases rest with
      | nil =>
        show parseArgs [ARG_SEP, n] acc = _
        rw [parseArgs_noval_end _ _ _ (by decide)]
        rfl
      | cons q qs =>
        obtain ⟨t0, ht0⟩ := renderArgBlocks_cons_head q qs
        show parseArgs (ARG_SEP :: n :: renderArgBlocks (q :: qs)) acc = _
        rw [ht0, parseArgs_noval_cons _ _ _ _ _ (by decide) (by decide), ← ht0]
        exact ih hrest _

theorem dictInsert_keys (d : List (Chars × Chars)) (k v : Chars) :
    (dictInsert d k v).map Prod.fst =
      if k ∈ d.map Prod.fst then d.map Prod.fst else d.map Prod.fst ++ [k] := by
  induction d with
  | nil => simp [dictInsert]
  | cons p t ih =>
    obtain ⟨k0, v0⟩ := p
    by_cases h : k0 = k
    · subst h
      simp [dictInsert]
    · simp only [dictInsert, if_neg h, List.map_cons, ih]
      have hne : ¬ (k = k0) := fun hh => h hh.symm
      by_cases hmem : k ∈ t.map Prod.fst
      · simp [hmem, hne]
      · simp [hmem, hne]

theorem dictInsert_lookup (d : List (Chars × Chars)) (k v : Chars) :
    dictLookup (dictInsert d k v) k = some v := by
  induction d with
  | nil => simp [dictInsert, dictLookup]
  | cons p t ih =>
    obtain ⟨k0, v0⟩ := p
    by_cases h : k0 = k
    · subst h
      simp [dictInsert, dictLookup]
    · simp [dictInsert, dictLookup, h, ih]

/-- C6: on a well-formed call body each argument's value is the lines between
its value-separator and the next arg-separator (or the end), joined with
newline and trimmed; an argument name with no following value-separator maps
to the empty string; and the arguments dictionary keeps first-seen key order
while the last written value wins. -/
theorem C6_argument_values :
    (∀ (args : List (Chars × Option (List Chars))),
      (∀ p ∈ args, ∀ l ∈ p.2.getD [], pyStrip l ≠ ARG_SEP) →
      ∀ acc, parseArgs (renderArgBlocks args) acc =
        args.foldl (fun a p => dictInsert a (pyStrip p.1) (argValue p.2)) acc) ∧
    (∀ (d : List (Chars × Chars)) (k v : Chars),
      (dictInsert d k v).map Prod.fst =
        if k ∈ d.map Prod.fst then d.map Prod.fst else d.map Prod.fst ++ [k]) ∧
    (∀ (d : List (Chars × Chars)) (k v : Chars),
      dictLookup (dictInsert d k v) k = some v) :=
  ⟨parseArgs_renderArgBlocks, dictInsert_keys, dictInsert_lookup⟩

/-- A concrete well-formed argument list with a duplicate name, a multiline
value needing trimming, and a name without a value separator. -/
def c6args : List (Chars × Option (List Chars)) :=
  [(("a").data, some [("1").data]),
    (("b").data, none),
    (("a").data, some [(" 2 ").data, ("3").data])]

/-- C6 witness: scanning the rendered body yields the trimmed joined values,
the empty string for the separator-less argument, first-seen order and
last-write-wins for the duplicate. -/
theorem C6_witness :
    parseArgs (renderArgBlocks c6args) [] =
      [(("a").data, ("2 \n3").data), (("b").data, [])] := by
  rw [C6_argument_values.1 c6args (by decide) []]
  decide

/-! ## Guard transitions (C3) -/

/-- A tool call the run loop recognizes as test execution: the fixed
allow-list `run_test` / `run_relevant_tests`, or `run_bash_cmd` whose
`command` argument matches the test-runner heuristics. -/
def recognizedTestCall (name : Chars) (arguments : List (Chars × Chars)) : Bool :=
  name == ("run_test").data || name == ("run_relevant_tests").data ||
    (name == ("run_bash_cmd").data && is_test_command (dictGet arguments (("command").data) []))

/-- C3: the guard transition table.  A successful replace_in_file call sets
made_edit and clears ran_tests_after_edit and nothing else; its success
detection implies the success marker is present in the lowered text; a
recognized test-execution call sets ran_tests_after_edit only when made_edit
already holds, stores the failure scan in last_test_had_failure, and latches
saw_failing_test when a failure token is found (case-insensitively); an
unsuccessful edit call or any unrecognized call leaves all four flags
unchanged. -/
theorem C3_flag_transitions :
    ∀ (g : GuardFlags) (name : Chars) (arguments : List (Chars × Chars)) (result : Chars),
      (name = ("replace_in_file").data → editSuccess result = true →
        updateFlags g name arguments result =
          { g with made_edit := true, ran_tests_after_edit := false }) ∧
      (editSuccess result = true →
        isSubstr (("successfully replaced").data) (pyLower result) = true) ∧
      (recognizedTestCall name arguments = true →
        updateFlags g name arguments result =
          { g with
              last_test_had_failure := has_test_failure result,
              saw_failing_test := if has_test_failure result then true else g.saw_failing_test,
              ran_tests_after_edit :=
                if g.made_edit then true else g.ran_tests_after_edit }) ∧
      (has_test_failure result = true ↔
        ∃ token ∈ failureTokens, isSubstr token (pyUpper result) = true) ∧
      (name = ("replace_in_file").data → editSuccess result = false →
        updateFlags g name arguments result = g) ∧
      (name ≠ ("replace_in_file").data → recognizedTestCall name arguments = false →
        updateFlags g name arguments result = g) := by
  intro g name arguments result
  refine ⟨?_, ?_, ?_, ?_, ?_, ?_⟩
  · intro hn hs
    subst hn
    simp [updateFlags, hs]
  · intro hs
    simp only [editSuccess, Bool.and_eq_true, Bool.not_eq_true'] at hs
    exact hs.1.1
  · intro hr
    simp only [recognizedTestCall, Bool.or_eq_true, Bool.and_eq_true, beq_iff_eq] at hr
    rcases hr with (hn | hn) | ⟨hn, hcmd⟩
    · subst hn
      simp [updateFlags]
    · subst hn
      simp [updateFlags]
    · subst hn
      simp [updateFlags, hcmd]
  · simp [has_test_failure, List.any_eq_true]
  · intro hn hs
    subst hn
    simp [updateFlags, hs]
  · intro hn hr
    have h1 : name ≠ ("run_test").data := by
      intro h
      subst h
      simp [recognizedTestCall] at hr
    have h2 : name ≠ ("run_relevant_tests").data := by
      intro h
      subst h
      simp [recognizedTestCall] at hr
    by_cases h3 : name = ("run_bash_cmd").data
    · subst h3
      have hcmd : is_test_command (dictGet arguments (("command").data) []) = false := by
        simpa [recognizedTestCall] using hr
      simp [updateFlags, hn, h1, h2, hcmd]
    · simp [updateFlags, hn, h1, h2, h3]

/-- C3 witness: the transition table at concrete calls — a successful edit,
a failing test run, and an unrelated tool call. -/
theorem C3_witness :
    updateFlags ⟨false, false, false, false⟩ (("replace_in_file").data) []
        (("Successfully replaced lines 1 to 1 in foo.py").data) =
      ⟨true, false, false, false⟩ ∧
    updateFlags ⟨true, false, false, false⟩ (("run_test").data) [] (("1 FAILED").data) =
      ⟨true, true, true, true⟩ ∧
    updateFlags ⟨true, true, true, false⟩ (("grep").data) [] (("ERROR").data) =
      ⟨true, true, true, false⟩ := by
  refine ⟨?_, ?_, ?_⟩
  · exact ((C3_flag_transitions ⟨false, false, false, false⟩ (("replace_in_file").data) []
      (("Successfully replaced lines 1 to 1 in foo.py").data)).1 rfl (by decide)).trans
      (by decide)
  · exact ((C3_flag_transitions ⟨true, false, false, false⟩ (("run_test").data) []
      (("1 FAILED").data)).2.2.1 (by decide)).trans (by decide)
  · exact (C3_flag_transitions ⟨true, true, true, false⟩ (("grep").data) []
      (("ERROR").data)).2.2.2.2.2 (by decide) (by decide)

/-! ## Budget termination (C4) -/

@[simp] theorem bumpLLM_result (o : RunOut) : (bumpLLM o).result = o.result := rfl

@[simp] theorem bumpLLM_llmCalls (o : RunOut) : (bumpLLM o).llmCalls = o.llmCalls + 1 := rfl

@[simp] theorem bumpLLM_finishAccepted (o : RunOut) :
    (bumpLLM o).finishAccepted = o.finishAccepted := rfl

@[simp] theorem bumpLLM_state (o : RunOut) : (bumpLLM o).state = o.state := rfl

@[simp] theorem bumpLLM_finishRejections (o : RunOut) :
    (bumpLLM o).finishRejections = o.finishRejections := rfl

@[simp] theorem bumpRej_result (o : RunOut) : (bumpRej o).result = o.result := rfl

@[simp] theorem bumpRej_llmCalls (o : RunOut) : (bumpRej o).llmCalls = o.llmCalls := rfl

@[simp] theorem bumpRej_finishAccepted (o : RunOut) :
    (bumpRej o).finishAccepted = o.finishAccepted := rfl

@[simp] theorem bumpRej_state (o : RunOut) : (bumpRej o).state = o.state := rfl

@[simp] theorem bumpRej_finishRejections (o : RunOut) :
    (bumpRej o).finishRejections = o.finishRejections + 1 := rfl

theorem runLoop_budget :
    ∀ (k : Nat) (env : Env) (li ti : Nat) (st : AgentState),
      (runLoop env li ti st k).llmCalls ≤ k ∧
      ((runLoop env li ti st k).finishAccepted = false →
        (runLoop env li ti st k).result = .ok (("Max steps reached").data)) := by
  intro k
  induction k with
  | zero =>
    intro env li ti st
    exact ⟨Nat.le_refl 0, fun _ => rfl⟩
  | succ k ih =>
    intro env li ti st
    simp only [runLoop]
    split
    · simp only [bumpLLM_llmCalls, bumpLLM_finishAccepted, bumpLLM_result]
      exact ⟨Nat.succ_le_succ (ih env (li + 1) ti _).1, (ih env (li + 1) ti _).2⟩
    · split
      · simp only [bumpLLM_llmCalls, bumpLLM_finishAccepted, bumpLLM_result]
        exact ⟨Nat.succ_le_succ (ih env (li + 1) ti _).1, (ih env (li + 1) ti _).2⟩
      · split
        · split
          · simp only [bumpRej_llmCalls, bumpRej_finishAccepted, bumpRej_result,
              bumpLLM_llmCalls, bumpLLM_finishAccepted, bumpLLM_result]
            exact ⟨Nat.succ_le_succ (ih env (li + 1) ti _).1, (ih env (li + 1) ti _).2⟩
          · exact ⟨Nat.succ_le_succ (Nat.zero_le k), fun h => Bool.noConfusion h⟩
        · split
          · split
            · simp only [bumpLLM_llmCalls, bumpLLM_finishAccepted, bumpLLM_result]
              exact ⟨Nat.succ_le_succ (ih env (li + 1) (ti + 1) _).1,
                (ih env (li + 1) (ti + 1) _).2⟩
            · simp only [bumpLLM_llmCalls, bumpLLM_finishAccepted, bumpLLM_result]
              exact ⟨Nat.succ_le_succ (ih env (li + 1) (ti + 1) _).1,
                (ih env (li + 1) (ti + 1) _).2⟩
            · simp only [bumpLLM_llmCalls, bumpLLM_finishAccepted, bumpLLM_result]
              exact ⟨Nat.succ_le_succ (ih env (li + 1) (ti + 1) _).1,
                (ih env (li + 1) (ti + 1) _).2⟩
          · simp only [bumpLLM_llmCalls, bumpLLM_finishAccepted, bumpLLM_result]
            exact ⟨Nat.succ_le_succ (ih env (li + 1) ti _).1, (ih env (li + 1) ti _).2⟩

/-- C4: run with budget `k` makes at most `k` LLM calls, and whenever the
budget is exhausted with no guard-accepted finish, the run returns the
distinguishable outcome string "Max steps reached". -/
theorem C4_budget_termination :
    ∀ (env : Env) (st : AgentState) (task : Chars) (k : Nat),
      st.user_message_id < st.id_to_message.length →
      (run env st task k).llmCalls ≤ k ∧
      ((run env st task k).finishAccepted = false →
        (run env st task k).result = .ok (("Max steps reached").data)) := by
  intro env st task k hvalid
  have hcond : (0 : Int) ≤ (st.user_message_id : Int) ∧
      (st.user_message_id : Int) < (st.id_to_message.length : Int) :=
    ⟨Int.ofNat_nonneg _, by exact_mod_cast hvalid⟩
  simp only [run, set_message_content, if_pos hcond]
  exact runLoop_budget k env 0 0 _

/-- C4 witness: a concrete zero-budget and small-budget run. -/
theorem C4_witness :
    ((run envBadParse reactAgentInit (("t").data) 2).llmCalls ≤ 2 ∧
      ((run envBadParse reactAgentInit (("t").data) 2).finishAccepted = false →
        (run envBadParse reactAgentInit (("t").data) 2).result =
          .ok (("Max steps reached").data))) :=
  C4_budget_termination envBadParse reactAgentInit (("t").data) 2 (by decide)

/-! ## Finish gating (C1) -/

/-- The state growth of one rejected-finish iteration, iterated: each
rejection appends the assistant turn and exactly one corrective user turn. -/
def rejIter (resp m : Chars) : Nat → AgentState → AgentState
  | 0, st => st
  | k + 1, st =>
    rejIter resp m k
      ((add_message ((add_message st (("assistant").data) resp).1) (("user").data) m).1)

/-- Number of stored messages with the given role and content. -/
def countMsgs (msgs : List Message) (role content : Chars) : Nat :=
  (msgs.filter (fun x => x.role == role && x.content == content)).length

theorem add_message_flags (st : AgentState) (role content : Chars) :
    ((add_message st role content).1).flags = st.flags := rfl

theorem countMsgs_append (msgs : List Message) (m1 : Message) (role content : Chars) :
    countMsgs (msgs ++ [m1]) role content =
      countMsgs msgs role content +
        (if m1.role == role && m1.content == content then 1 else 0) := by
  simp only [countMsgs, List.filter_append, List.length_append]
  cases h : (m1.role == role && m1.content == content) <;> simp [h]

theorem C1_reject_step (env : Env) (li ti r : Nat) (st : AgentState)
    (response m : Chars) (fc : ParsedCall)
    (hllm : env.llm li (get_messages_for_llm st) = .ok response)
    (hparse : parse response = .ok fc)
    (hname : fc.name = ("finish").data)
    (hguard : guardRejection st.flags = some m) :
    runLoop env li ti st (r + 1) =
      bumpRej (bumpLLM (runLoop env (li + 1) ti
        ((add_message ((add_message st (("assistant").data) response).1) (("user").data)
          m).1) r)) := by
  simp only [runLoop, hllm, hparse]
  rw [if_pos hname, hguard]

theorem C1_reject_fold :
    ∀ (k : Nat) (env : Env) (st : AgentState) (resp m : Chars) (fc : ParsedCall)
      (li ti : Nat),
      (∀ i msgs, env.llm i msgs = .ok resp) →
      parse resp = .ok fc →
      fc.name = ("finish").data →
      guardRejection st.flags = some m →
      runLoop env li ti st k =
        ⟨.ok (("Max steps reached").data), rejIter resp m k st, k, false, k⟩ ∧
      (rejIter resp m k st).id_to_message.length = st.id_to_message.length + 2 * k ∧
      countMsgs (rejIter resp m k st).id_to_message (("user").data) m =
        countMsgs st.id_to_message (("user").data) m + k ∧
      (rejIter resp m k st).flags = st.flags := by
  intro k
  induction k with
  | zero =>
    intro env st resp m fc li ti hEnv hp hn hg
    exact ⟨rfl, by simp [rejIter], by simp [rejIter], rfl⟩
  | succ k ih =>
    intro env st resp m fc li ti hEnv hp hn hg
    have hg2 : guardRejection
        ((add_message ((add_message st (("assistant").data) resp).1) (("user").data)
          m).1).flags = some m := hg
    have hstep := C1_reject_step env li ti k st resp m fc (hEnv li _) hp hn hg
    have hrec := ih env
      ((add_message ((add_message st (("assistant").data) resp).1) (("user").data) m).1)
      resp m fc (li + 1) ti hEnv hp hn hg2
    have hlen2 : ((add_message ((add_message st (("assistant").data) resp).1)
        (("user").data) m).1).id_to_message.length = st.id_to_message.length + 2 := by
      simp [add_message]
    have hcnt2 : countMsgs ((add_message ((add_message st (("assistant").data) resp).1)
        (("user").data) m).1).id_to_message (("user").data) m =
          countMsgs st.id_to_message (("user").data) m + 1 := by
      simp only [add_message, List.append_assoc]
      rw [← List.append_assoc, countMsgs_append, countMsgs_append]
      have ha : ((("assistant").data : Chars) == (("user").data : Chars)) = false := by decide
      have hu : ((("user").data : Chars) == (("user").data : Chars)) = true := by decide
      simp [ha, hu]
    refine ⟨?_, ?_, ?_, ?_⟩
    · rw [hstep, hrec.1]
      rfl
    · have h1 := hrec.2.1
      rw [show rejIter resp m (k + 1) st = rejIter resp m k
        ((add_message ((add_message st (("assistant").data) resp).1) (("user").data) m).1)
        from rfl, h1, hlen2]
      omega
    · have h1 := hrec.2.2.1
      rw [show rejIter resp m (k + 1) st = rejIter resp m k
        ((add_message ((add_message st (("assistant").data) resp).1) (("user").data) m).1)
        from rfl, h1, hcnt2]
      omega
    · exact hrec.2.2.2

/-- C1: the finish gating.  When made_edit is false (indeed whenever any
guard check fails) a parsed finish call is rejected, which appends exactly
one corrective user message after the assistant turn, advances the step
budget, and leaves the guard flags unchanged; an environment that requests
finish on every step with failing guards collects exactly N rejections and
N corrective messages over N steps and the run ends only through the budget,
returning "Max steps reached". -/
theorem C1_finish_gating :
    (∀ g : GuardFlags, g.made_edit = false → ∃ m, guardRejection g = some m) ∧
    (∀ (env : Env) (li ti r : Nat) (st : AgentState) (response m : Chars)
      (fc : ParsedCall),
      env.llm li (get_messages_for_llm st) = .ok response →
      parse response = .ok fc →
      fc.name = ("finish").data →
      guardRejection st.flags = some m →
      runLoop env li ti st (r + 1) =
        bumpRej (bumpLLM (runLoop env (li + 1) ti
          ((add_message ((add_message st (("assistant").data) response).1) (("user").data)
            m).1) r))) ∧
    (∀ (k : Nat) (env : Env) (st : AgentState) (resp m : Chars) (fc : ParsedCall)
      (li ti : Nat),
      (∀ i msgs, env.llm i msgs = .ok resp) →
      parse resp = .ok fc →
      fc.name = ("finish").data →
      guardRejection st.flags = some m →
      runLoop env li ti st k =
        ⟨.ok (("Max steps reached").data), rejIter resp m k st, k, false, k⟩ ∧
      (rejIter resp m k st).id_to_message.length = st.id_to_message.length + 2 * k ∧
      countMsgs (rejIter resp m k st).id_to_message (("user").data) m =
        countMsgs st.id_to_message (("user").data) m + k ∧
      (rejIter resp m k st).flags = st.flags) := by
  refine ⟨?_, C1_reject_step, C1_reject_fold⟩
  intro g h
  by_cases hs : g.saw_failing_test
  · exact ⟨rejectionMsg2, by simp [guardRejection, hs, h]⟩
  · exact ⟨rejectionMsg1, by simp [guardRejection, hs]⟩

/-- A response that always requests finish. -/
def finishResp : Chars :=
  ("Done.\n----BEGIN_FUNCTION_CALL----\nfinish\n----ARG----\nresult\n----VALUE----\nAll fixed\n----END_FUNCTION_CALL----").data

/-- The parsed form of `finishResp`. -/
def finishFc : ParsedCall :=
  ⟨("Done.").data, ("finish").data, [(("result").data, ("All fixed").data)]⟩

/-- An environment whose model requests finish on every step. -/
def envFinishLoop : Env :=
  { llm := fun _ _ => .ok finishResp, tool := fun _ _ _ => .ok [] }

/-- C1 witness: two rejected finishes on the fresh agent append exactly two
corrective messages, leave the flags unchanged, and the run ends only by
budget. -/
theorem C1_witness :
    runLoop envFinishLoop 0 0 reactAgentInit 2 =
      ⟨.ok (("Max steps reached").data),
        rejIter finishResp rejectionMsg1 2 reactAgentInit, 2, false, 2⟩ ∧
    (rejIter finishResp rejectionMsg1 2 reactAgentInit).id_to_message.length =
      reactAgentInit.id_to_message.length + 2 * 2 ∧
    countMsgs (rejIter finishResp rejectionMsg1 2 reactAgentInit).id_to_message
        (("user").data) rejectionMsg1 =
      countMsgs reactAgentInit.id_to_message (("user").data) rejectionMsg1 + 2 ∧
    (rejIter finishResp rejectionMsg1 2 reactAgentInit).flags = reactAgentInit.flags :=
  C1_finish_gating.2.2 2 envFinishLoop reactAgentInit finishResp rejectionMsg1 finishFc 0 0
    (fun _ _ => rfl) (by decide) (by decide) (by decide)

/-! ## Guard-flag scoping across runs (C7) -/

/-- Descriptor of the environment's replace_in_file tool (envs.py). -/
def replaceTool : ToolDesc :=
  ⟨("replace_in_file").data,
    ("(file_path: str, from_line: int, to_line: int, content: str) -> str").data,
    some (("Replace lines in a file from from_line to to_line (inclusive, 1-indexed) with the given content.").data)⟩

/-- Descriptor of the environment's run_test tool (envs.py). -/
def runTestTool : ToolDesc :=
  ⟨("run_test").data,
    ("(test_path: str = None, test_name: str = None, verbose: bool = False) -> str").data,
    some (("Run tests using pytest.").data)⟩

/-- The agent after registering the environment's edit and test tools, as
main-style wiring does with add_functions. -/
def agentWithTools : AgentState :=
  match add_functions reactAgentInit [replaceTool, runTestTool] with
  | .ok s => s
  | .error _ => reactAgentInit

/-- An assistant response calling replace_in_file. -/
def editCallResp : Chars :=
  ("Editing now.\n----BEGIN_FUNCTION_CALL----\nreplace_in_file\n----ARG----\nfile_path\n----VALUE----\nfoo.py\n----ARG----\ncontent\n----VALUE----\nx = 1\n----END_FUNCTION_CALL----").data

/-- An assistant response calling run_test. -/
def testCallResp : Chars :=
  ("Testing.\n----BEGIN_FUNCTION_CALL----\nrun_test\n----ARG----\ntest_path\n----VALUE----\ntests/test_foo.py\n----END_FUNCTION_CALL----").data

/-- First-run environment: a successful edit, a failing test run, then a
passing test run. -/
def envFirstRun : Env :=
  { llm := fun i _ => .ok (if i = 0 then editCallResp else testCallResp),
    tool := fun i _ _ =>
      if i = 0 then .ok (("Successfully replaced lines 1 to 1 in foo.py").data)
      else if i = 1 then .ok (("1 FAILED").data)
      else .ok (("2 passed").data) }

/-- Second-run environment: the model immediately requests finish. -/
def envSecondRun : Env :=
  { llm := fun _ _ => .ok finishResp, tool := fun _ _ _ => .ok [] }

set_option maxRecDepth 200000 in
/-- C7 counterexample: after a first run that edited and tested, a second
`run` call on the same agent starts with `made_edit` still true and accepts
a finish on its very first step although no edit happened in that run —
so the guard flags are NOT fresh at the start of every run call. -/
theorem C7_counterexample :
    (run envFirstRun agentWithTools (("task one").data) 3).state.flags.made_edit = true ∧
    (run envSecondRun (run envFirstRun agentWithTools (("task one").data) 3).state
        (("task two").data) 1).finishAccepted = true ∧
    (run envSecondRun (run envFirstRun agentWithTools (("task one").data) 3).state
        (("task two").data) 1).result = .ok (("All fixed").data) := by
  refine ⟨by decide, by decide, by decide⟩

/-- C7 amended: the four guard flags are initialized to false at agent
construction (not per run), and the only state change `run` performs before
entering the loop — storing the task text — preserves whatever flag values
the instance already carries. -/
theorem C7_amended :
    reactAgentInit.flags = ⟨false, false, false, false⟩ ∧
    (∀ (st : AgentState) (task : Chars) (st1 : AgentState),
      set_message_content st (st.user_message_id : Int) task = .ok st1 →
      st1.flags = st.flags) := by
  refine ⟨by decide, ?_⟩
  intro st task st1 h
  simp only [set_message_content] at h
  split at h
  · cases h
    rfl
  · split at h
    · cases h
      rfl
    · cases h

/-- The fresh agent with a task stored, as run does before its loop. -/
def agentWithTask : AgentState :=
  match set_message_content reactAgentInit (reactAgentInit.user_message_id : Int)
      (("t").data) with
  | .ok s => s
  | .error _ => reactAgentInit

set_option maxRecDepth 200000 in
/-- C7 witness: the amended statement at a concrete state. -/
theorem C7_witness : agentWithTask.flags = reactAgentInit.flags :=
  C7_amended.2 reactAgentInit (("t").data) agentWithTask rfl

/-! ## Message-store update (C9) -/

/-- C9 counterexample: the claim says every negative sequence_id fails, but
`set_message_content` at -1 on the fresh agent succeeds and overwrites the
message with sequence_id 1 (Python negative indexing aliases from the end). -/
theorem C9_counterexample :
    (set_message_content reactAgentInit (-1) (("x").data)).map
      (fun s => (s.id_to_message.getD 1 defaultMessage).content) = .ok (("x").data) := by
  decide

/-- C9 amended: set_message_content raises IndexError exactly when the index
is below `-len` or at least `len`; indices in `[0, len)` update that
position, indices in `[-len, 0)` alias to `len + i`; a failing call returns
only the error, leaving the stored history to the caller unchanged. -/
theorem C9_amended :
    (∀ (st : AgentState) (i : Int) (c : Chars),
      ((∃ e, set_message_content st i c = .error e) ↔
        (i < -(st.id_to_message.length : Int) ∨ (st.id_to_message.length : Int) ≤ i))) ∧
    (∀ (st : AgentState) (i : Int) (c : Chars),
      0 ≤ i → i < (st.id_to_message.length : Int) →
      set_message_content st i c =
        .ok { st with id_to_message := setContentAt st.id_to_message i.toNat c }) ∧
    (∀ (st : AgentState) (i : Int) (c : Chars),
      -(st.id_to_message.length : Int) ≤ i → i < 0 →
      set_message_content st i c =
        .ok { st with id_to_message :=
          setContentAt st.id_to_message (i + st.id_to_message.length).toNat c }) := by
  refine ⟨?_, ?_, ?_⟩
  · intro st i c
    simp only [set_message_content]
    by_cases h1 : 0 ≤ i ∧ i < (st.id_to_message.length : Int)
    · rw [if_pos h1]
      constructor
      · rintro ⟨e, he⟩
        cases he
      · intro h
        exfalso
        omega
    · rw [if_neg h1]
      by_cases h2 : -(st.id_to_message.length : Int) ≤ i ∧ i < 0
      · rw [if_pos h2]
        constructor
        · rintro ⟨e, he⟩
          cases he
        · intro h
          exfalso
          omega
      · rw [if_neg h2]
        constructor
        · intro _
          omega
        · intro _
          exact ⟨_, rfl⟩
  · intro st i c h0 hlt
    simp only [set_message_content]
    rw [if_pos ⟨h0, hlt⟩]
  · intro st i c hge hlt
    simp only [set_message_content]
    rw [if_neg (by omega), if_pos ⟨hge, hlt⟩]

/-- C9 witness: a positive in-range update and a negative aliasing update on
the fresh agent. -/
theorem C9_witness :
    set_message_content reactAgentInit 1 (("y").data) =
      .ok { reactAgentInit with
        id_to_message := setContentAt reactAgentInit.id_to_message (1 : Int).toNat
          (("y").data) } ∧
    set_message_content reactAgentInit (-2) (("z").data) =
      .ok { reactAgentInit with
        id_to_message := setContentAt reactAgentInit.id_to_message
          ((-2 : Int) + (reactAgentInit.id_to_message.length : Int)).toNat (("z").data) } :=
  ⟨C9_amended.2.1 reactAgentInit 1 (("y").data) (by decide) (by decide),
    C9_amended.2.2 reactAgentInit (-2) (("z").data) (by decide) (by decide)⟩

/-! ## System-message rendering and tool catalogue (C8) -/

theorem infix_append_right {x z : Chars} (w : Chars) (h : x <:+: z) : x <:+: z ++ w :=
  h.trans (List.prefix_append z w).isInfix

theorem infix_append_left {x z : Chars} (w : Chars) (h : x <:+: z) : x <:+: w ++ z :=
  h.trans (List.suffix_append w z).isInfix

theorem joinNL_cons₂ (a b : Chars) (t : List Chars) :
    joinNL (a :: b :: t) = a ++ '\n' :: joinNL (b :: t) := rfl

theorem joinNL_infix_of_mem (x : Chars) (ls : List Chars) (h : x ∈ ls) : x <:+: joinNL ls := by
  induction ls with
  | nil => cases h
  | cons a t ih =>
    rcases List.mem_cons.mp h with rfl | hmem
    · cases t with
      | nil => exact List.infix_refl x
      | cons b t' =>
        rw [joinNL_cons₂]
        exact ⟨[], '\n' :: joinNL (b :: t'), by simp⟩
    · cases t with
      | nil => cases hmem
      | cons b t' =>
        rw [joinNL_cons₂, show a ++ '\n' :: joinNL (b :: t') =
          (a ++ ['\n']) ++ joinNL (b :: t') from by simp]
        exact infix_append_left _ (ih hmem)

theorem getD_setContentAt (ms : List Message) :
    ∀ (i : Nat) (c : Chars) (d : Message), i < ms.length →
      (setContentAt ms i c).getD i d = { ms.getD i d with content := c } := by
  induction ms with
  | nil =>
    intro i c d h
    simp at h
  | cons msg t ih =>
    intro i c d h
    cases i with
    | zero => rfl
    | succ n =>
      show (setContentAt t n c).getD n d = _
      exact ih n c d (by simpa using h)

theorem descr_infix_tool_text (fmap : List ToolDesc) (t : ToolDesc) (h : t ∈ fmap) :
    tool_description t <:+: build_tool_text fmap := by
  simp only [build_tool_text]
  cases hcat : firstCategory t.name with
  | some cat =>
    obtain ⟨centry, hfd, hc1⟩ := Option.map_eq_some'.mp hcat
    have hmemc : centry ∈ tool_categories := List.mem_of_find?_eq_some hfd
    have hds : tool_description t ∈
        (fmap.filter (fun x => firstCategory x.name == some centry.1)).map
          tool_description :=
      List.mem_map_of_mem _ (List.mem_filter.mpr ⟨h, by simp [hcat, hc1]⟩)
    have hne : ((fmap.filter (fun x => firstCategory x.name == some centry.1)).map
        tool_description).isEmpty = false := by
      cases hv : ((fmap.filter (fun x => firstCategory x.name == some centry.1)).map
          tool_description).isEmpty
      · rfl
      · rw [List.isEmpty_iff] at hv
        rw [hv] at hds
        cases hds
    have hsec : (("### ").data ++ centry.1 ++ ("\n").data ++
        joinNL ((fmap.filter (fun x => firstCategory x.name == some centry.1)).map
          tool_description)) ∈
        tool_categories.filterMap (fun c =>
          let ds := (fmap.filter (fun x => firstCategory x.name == some c.1)).map
            tool_description
          if ds.isEmpty then none
          else some (("### ").data ++ c.1 ++ ("\n").data ++ joinNL ds)) := by
      apply List.mem_filterMap.mpr
      refine ⟨centry, hmemc, ?_⟩
      simp only [hne]
      rfl
    have h1 : tool_description t <:+: (("### ").data ++ centry.1 ++ ("\n").data ++
        joinNL ((fmap.filter (fun x => firstCategory x.name == some centry.1)).map
          tool_description)) :=
      infix_append_left _ (joinNL_infix_of_mem _ _ hds)
    by_cases hunc : ((fmap.filter (fun x => (firstCategory x.name).isNone)).map
        tool_description).isEmpty = true
    · rw [if_pos hunc]
      exact h1.trans (joinNL_infix_of_mem _ _ hsec)
    · rw [if_neg hunc]
      exact h1.trans (joinNL_infix_of_mem _ _ (List.mem_append_left _ hsec))
  | none =>
    have hds : tool_description t ∈
        (fmap.filter (fun x => (firstCategory x.name).isNone)).map tool_description :=
      List.mem_map_of_mem _ (List.mem_filter.mpr ⟨h, by simp [hcat]⟩)
    have hne : ¬ (((fmap.filter (fun x => (firstCategory x.name).isNone)).map
        tool_description).isEmpty = true) := by
      intro hv
      rw [List.isEmpty_iff] at hv
      rw [hv] at hds
      cases hds
    rw [if_neg hne]
    have h1 : tool_description t <:+: (("### Other Tools\n").data ++
        joinNL ((fmap.filter (fun x => (firstCategory x.name).isNone)).map
          tool_description)) :=
      infix_append_left _ (joinNL_infix_of_mem _ _ hds)
    exact h1.trans (joinNL_infix_of_mem _ _
      (List.mem_append_right _ (List.mem_singleton.mpr rfl)))

theorem add_functions_ok (st : AgentState) (tools : List ToolDesc) (st' : AgentState)
    (h : add_functions st tools = .ok st') :
    st'.function_map = tools.foldl dictInsertTool st.function_map ∧
    st.system_message_id < st.id_to_message.length ∧
    st'.id_to_message = setContentAt st.id_to_message st.system_message_id
      ((st.id_to_message.getD st.system_message_id defaultMessage).content ++
        ("\n\n## Available Tools\n\n").data ++
        build_tool_text (tools.foldl dictInsertTool st.function_map) ++
        ("\n\n## Response Format\n\n").data ++ response_format ++ ("\n\n").data ++
        ("DO NOT CHANGE ANY TEST! AS THEY WILL BE USED FOR EVALUATION.").data) := by
  simp only [add_functions, set_message_content] at h
  split at h
  · rename_i hcond
    cases h
    refine ⟨rfl, ?_, ?_⟩
    · exact_mod_cast hcond.2
    · simp
  · split at h
    · rename_i hcond1 hcond2
      exfalso
      have := hcond2.2
      omega
    · cases h

/-- The fresh agent after one more add_functions call. -/
def agentPlusTest : AgentState :=
  match add_functions reactAgentInit [runTestTool] with
  | .ok s => s
  | .error _ => reactAgentInit

/-- C8 amended: registering tools appends a freshly built catalogue to the
stored system message content (a proper, non-empty extension — so the
stored content IS mutated); after any registration the stored system
content's grouped catalogue contains every currently registered tool's
description (taxonomy categories with the Other fallback); and rendering a
system message through message_id_to_context always includes the description
of every currently registered tool, computed fresh from the registry. -/
theorem C8_catalogue :
    (∀ (st : AgentState) (tools : List ToolDesc) (st' : AgentState),
      add_functions st tools = .ok st' →
      ∃ tail : Chars, tail ≠ [] ∧
        (st'.id_to_message.getD st.system_message_id defaultMessage).content =
          (st.id_to_message.getD st.system_message_id defaultMessage).content ++ tail) ∧
    (∀ (st : AgentState) (tools : List ToolDesc) (st' : AgentState),
      add_functions st tools = .ok st' →
      ∀ t ∈ st'.function_map,
        tool_description t <:+:
          (st'.id_to_message.getD st.system_message_id defaultMessage).content) ∧
    (∀ st : AgentState,
      (st.id_to_message.getD st.system_message_id defaultMessage).role = ("system").data →
      ∀ t ∈ st.function_map,
        ctx_tool_description t <:+: message_id_to_context st st.system_message_id) := by
  refine ⟨?_, ?_, ?_⟩
  · intro st tools st' h
    obtain ⟨hfm, hlt, hmsgs⟩ := add_functions_ok st tools st' h
    refine ⟨("\n\n## Available Tools\n\n").data ++
      (build_tool_text (tools.foldl dictInsertTool st.function_map) ++
        (("\n\n## Response Format\n\n").data ++ (response_format ++ (("\n\n").data ++
          ("DO NOT CHANGE ANY TEST! AS THEY WILL BE USED FOR EVALUATION.").data)))),
      ?_, ?_⟩
    · intro hnil
      have hA := (List.append_eq_nil.mp hnil).1
      exact (by decide : (("\n\n## Available Tools\n\n").data : Chars) ≠ []) hA
    · rw [hmsgs, getD_setContentAt _ _ _ _ hlt]
      simp [List.append_assoc]
  · intro st tools st' h t hmem
    obtain ⟨hfm, hlt, hmsgs⟩ := add_functions_ok st tools st' h
    rw [hfm] at hmem
    have hbase := descr_infix_tool_text _ t hmem
    rw [hmsgs, getD_setContentAt _ _ _ _ hlt]
    exact infix_append_right _ (infix_append_right _ (infix_append_right _
      (infix_append_right _ (infix_append_left _ hbase))))
  · intro st hrole t hmem
    simp only [message_id_to_context]
    rw [if_pos hrole]
    have hj := joinNL_infix_of_mem _ _
      (List.mem_map_of_mem ctx_tool_description hmem)
    exact infix_append_right _ (infix_append_right _ (infix_append_right _
      (infix_append_right _ (infix_append_left _ hj))))

set_option maxRecDepth 200000 in
/-- C8 counterexample: registering a tool DOES mutate stored message
content — after an add_functions call the stored system message content
differs from what was stored before the call. -/
theorem C8_counterexample :
    (agentPlusTest.id_to_message.getD reactAgentInit.system_message_id
        defaultMessage).content ≠
      (reactAgentInit.id_to_message.getD reactAgentInit.system_message_id
        defaultMessage).content := by
  obtain ⟨hfm, hlt, hmsgs⟩ := add_functions_ok reactAgentInit [runTestTool] agentPlusTest rfl
  rw [hmsgs, getD_setContentAt _ _ _ _ hlt]
  intro hcontra
  have hlen := congrArg List.length hcontra
  simp [List.length_append] at hlen

set_option maxRecDepth 200000 in
/-- C8 witness: the grouped stored catalogue and the fresh rendered
catalogue both contain the finish tool's description on concrete states. -/
theorem C8_witness :
    tool_description finishTool <:+:
      (agentPlusTest.id_to_message.getD reactAgentInit.system_message_id
        defaultMessage).content ∧
    ctx_tool_description finishTool <:+:
      message_id_to_context reactAgentInit reactAgentInit.system_message_id :=
  ⟨C8_catalogue.2.1 reactAgentInit [runTestTool] agentPlusTest rfl finishTool (by decide),
    C8_catalogue.2.2 reactAgentInit (by decide) finishTool (by decide)⟩
